import Mathlib

/-!
# CudaSift: the public interface `include/cudaSift/sift.h`

The repository's source is one header.  It declares two record types
(`SiftPoint`, `SiftData`) and seven operations.  This development embeds

* the declarations themselves (members, their types and array lengths, the
  `MANAGEDMEM` switch, parameter lists with their default arguments), so that
  statements about "exactly these fields" or "these defaults, in this order"
  are statements about data read off the header;
* the C++ rule that binds a call's arguments to a parameter list with default
  arguments, and the C rule that lays out the members of a record;
* the feature-store operations whose bodies are not part of the header; those
  are modelled from the specification and are marked as such.
-/

namespace CudaSift

/-! ## Declarations -/

/-- The types that occur in `sift.h`, plus `constRef`, the read-only way of
passing an object, which the header never uses. -/
inductive CType where
  | void
  | int
  | float
  | double
  | bool
  | ref (target : String)
  | constRef (target : String)
  | ptr (target : String)
  deriving DecidableEq, Repr

/-- A callee can write through a non-const reference and through a pointer to
non-const; it cannot write through a const reference or into a by-value
argument of the caller. -/
def CType.writable : CType → Bool
  | .ref _ => true
  | .ptr _ => true
  | _ => false

/-- Literals used as default arguments.  A floating literal keeps its decimal
digits: `0.85f` is `float 85 2`, that is 85 / 10 ^ 2. -/
inductive Literal where
  | int (v : Int)
  | bool (b : Bool)
  | float (mantissa : Int) (decimals : Nat)
  deriving DecidableEq, Repr

/-- The decimal value a floating or integer literal is written as (rounding to
the binary format is not part of the embedding). -/
def Literal.toRat : Literal → ℚ
  | .int v => v
  | .bool b => if b then 1 else 0
  | .float m d => (m : ℚ) / (10 : ℚ) ^ d

/-- One member of a record: `len = none` for a scalar member, `some n` for an
array member `T name[n]`. -/
structure Field where
  type : CType
  name : String
  len : Option Nat
  deriving DecidableEq, Repr

/-- Number of scalars a member holds. -/
def Field.count (f : Field) : Nat := f.len.getD 1

/-- The members of `SiftPoint`, in declaration order (sift.h lines 8-24). -/
def SiftPoint_fields : List Field :=
  [ ⟨.float, "xpos", none⟩,
    ⟨.float, "ypos", none⟩,
    ⟨.float, "scale", none⟩,
    ⟨.float, "sharpness", none⟩,
    ⟨.float, "edgeness", none⟩,
    ⟨.float, "orientation", none⟩,
    ⟨.float, "score", none⟩,
    ⟨.float, "ambiguity", none⟩,
    ⟨.int, "match", none⟩,
    ⟨.float, "match_xpos", none⟩,
    ⟨.float, "match_ypos", none⟩,
    ⟨.float, "match_error", none⟩,
    ⟨.float, "subsampling", none⟩,
    ⟨.float, "empty", some 3⟩,
    ⟨.float, "data", some 128⟩ ]

/-- The members of `SiftData` (sift.h lines 26-35) in a build where the
preprocessor symbol `MANAGEDMEM` is defined (`true`) or not (`false`). -/
def SiftData_fields (MANAGEDMEM : Bool) : List Field :=
  [ ⟨.int, "numPts", none⟩, ⟨.int, "maxPts", none⟩ ] ++
  (if MANAGEDMEM then
    [ ⟨.ptr "SiftPoint", "m_data", none⟩ ]
  else
    [ ⟨.ptr "SiftPoint", "h_data", none⟩, ⟨.ptr "SiftPoint", "d_data", none⟩ ])

/-- Look a member up by name. -/
def findField (fs : List Field) (n : String) : Option Field :=
  fs.find? (fun f => f.name == n)

/-- The buffer handles of a record: its pointer members. -/
def handles (fs : List Field) : List String :=
  (fs.filter (fun f => f.type == .ptr "SiftPoint")).map Field.name

/-- The members of `SiftPoint` other than the descriptor and the padding. -/
def namedFields : List Field :=
  SiftPoint_fields.filter (fun f => f.name != "data" && f.name != "empty")

/-- Range of a 32-bit two's complement `int`. -/
def intRange (v : Int) : Prop := -(2 : Int) ^ 31 ≤ v ∧ v < (2 : Int) ^ 31

/-- One parameter of a function declaration, with its default argument. -/
structure Param where
  type : CType
  name : String
  dflt : Option Literal
  deriving DecidableEq, Repr

/-- A function declaration. -/
structure FunDecl where
  ret : CType
  name : String
  params : List Param
  deriving DecidableEq, Repr

/-- sift.h line 37. -/
def InitCuda_decl : FunDecl :=
  ⟨.void, "InitCuda", [ ⟨.int, "devNum", some (.int 0)⟩ ]⟩

/-- sift.h line 38. -/
def ExtractSift_decl : FunDecl :=
  ⟨.void, "ExtractSift",
    [ ⟨.ref "SiftData", "siftData", none⟩,
      ⟨.ref "Image", "img", none⟩,
      ⟨.int, "numOctaves", none⟩,
      ⟨.double, "initBlur", none⟩,
      ⟨.float, "thresh", none⟩,
      ⟨.float, "lowestScale", some (.float 0 1)⟩,
      ⟨.bool, "scaleUp", some (.bool false)⟩ ]⟩

/-- sift.h line 39. -/
def InitSiftData_decl : FunDecl :=
  ⟨.void, "InitSiftData",
    [ ⟨.ref "SiftData", "data", none⟩,
      ⟨.int, "num", some (.int 1024)⟩,
      ⟨.bool, "host", some (.bool false)⟩,
      ⟨.bool, "dev", some (.bool true)⟩ ]⟩

/-- sift.h line 40. -/
def FreeSiftData_decl : FunDecl :=
  ⟨.void, "FreeSiftData", [ ⟨.ref "SiftData", "data", none⟩ ]⟩

/-- sift.h line 41. -/
def PrintSiftData_decl : FunDecl :=
  ⟨.void, "PrintSiftData", [ ⟨.ref "SiftData", "data", none⟩ ]⟩

/-- sift.h line 42. -/
def MatchSiftData_decl : FunDecl :=
  ⟨.double, "MatchSiftData",
    [ ⟨.ref "SiftData", "data1", none⟩,
      ⟨.ref "SiftData", "data2", none⟩ ]⟩

/-- sift.h line 43. -/
def FindHomography_decl : FunDecl :=
  ⟨.double, "FindHomography",
    [ ⟨.ref "SiftData", "data", none⟩,
      ⟨.ptr "float", "homography", none⟩,
      ⟨.ptr "int", "numMatches", none⟩,
      ⟨.int, "numLoops", some (.int 1000)⟩,
      ⟨.float, "minScore", some (.float 85 2)⟩,
      ⟨.float, "maxAmbiguity", some (.float 95 2)⟩,
      ⟨.float, "thresh", some (.float 50 1)⟩ ]⟩

/-- An argument of a call: a literal, or an object of the caller that is
passed by reference or by pointer. -/
inductive Arg where
  | lit (l : Literal)
  | obj (name : String)
  deriving DecidableEq, Repr

/-- C++ binding of the arguments of a call to a parameter list: arguments
fill the parameters from the left, every parameter left over takes its default
argument, and the call is ill-formed (`none`) when there are too many
arguments or a parameter left over has no default. -/
def bindArgs : List Param → List Arg → Option (List Arg)
  | [], [] => some []
  | [], _ :: _ => none
  | p :: ps, [] =>
    match p.dflt with
    | none => none
    | some l => (bindArgs ps []).map (fun r => Arg.lit l :: r)
  | _ :: ps, a :: as => (bindArgs ps as).map (fun r => a :: r)

/-- The parameters a caller must supply: those without a default argument. -/
def required (d : FunDecl) : List Param := d.params.filter (fun p => p.dflt.isNone)

/-- The parameters a caller may omit. -/
def optional (d : FunDecl) : List Param := d.params.filter (fun p => p.dflt.isSome)

/-! ## Record layout -/

/-- Size in bytes of a scalar of each type on the targets of the library:
`int` and `float` are one 4-byte word. -/
def CType.size : CType → Nat
  | .void => 0
  | .int => 4
  | .float => 4
  | .double => 8
  | .bool => 1
  | .ref _ => 8
  | .constRef _ => 8
  | .ptr _ => 8

/-- Alignment of a scalar: its size (1 for the empty type). -/
def CType.align (t : CType) : Nat := max 1 t.size

/-- Round `off` up to a multiple of `a`. -/
def alignUp (off a : Nat) : Nat := ((off + a - 1) / a) * a

/-- Bytes a member occupies. -/
def Field.bytes (f : Field) : Nat := f.type.size * f.count

/-- C layout of a record: every member is placed at the first offset not
below the end of the previous member that is a multiple of its alignment.
Returns each member with its byte offset. -/
def offsetsFrom : Nat → List Field → List (String × Nat)
  | _, [] => []
  | off, f :: fs =>
    (f.name, alignUp off f.type.align) ::
      offsetsFrom (alignUp off f.type.align + f.bytes) fs

/-- End of the last member. -/
def endFrom : Nat → List Field → Nat
  | off, [] => off
  | off, f :: fs => endFrom (alignUp off f.type.align + f.bytes) fs

/-- Alignment of a record: the largest alignment of a member. -/
def recordAlign (fs : List Field) : Nat :=
  fs.foldl (fun a f => max a f.type.align) 1

/-- The value of `sizeof`: the end of the last member rounded up to the
alignment of the record. -/
def sizeOf (fs : List Field) : Nat := alignUp (endFrom 0 fs) (recordAlign fs)

/-- Byte offset of the member called `n`. -/
def offsetOf (fs : List Field) (n : String) : Option Nat :=
  ((offsetsFrom 0 fs).find? (fun e => e.1 == n)).map Prod.snd

/-- Bytes of a 4-byte word. -/
def wordBytes : Nat := 4

/-! ## Feature-store operations

The header declares the operations; their bodies are not part of the
repository's sources.  The definitions below follow the specification. -/

/-- A keypoint record as a value (sift.h lines 8-24).  A `float` member is
the exact rational it stands for. -/
structure SiftPoint where
  xpos : ℚ
  ypos : ℚ
  scale : ℚ
  sharpness : ℚ
  edgeness : ℚ
  orientation : ℚ
  score : ℚ
  ambiguity : ℚ
  «match» : Int
  match_xpos : ℚ
  match_ypos : ℚ
  match_error : ℚ
  subsampling : ℚ
  empty : Fin 3 → ℚ
  data : Fin 128 → ℚ

/-- What a `SiftPoint *` refers to: nothing (a null handle), or the records
written so far into the array it points to. -/
abbrev Buffer := Option (List SiftPoint)

/-- The buffer handles of `SiftData` (sift.h lines 29-34): one handle in a
`MANAGEDMEM` build, a host handle and a device handle otherwise. -/
inductive Storage where
  | managed (m_data : Buffer)
  | split (h_data : Buffer) (d_data : Buffer)

/-- A feature collection as a value (sift.h lines 26-35). -/
structure SiftData where
  numPts : Int
  maxPts : Int
  storage : Storage

/-- The buffer the device works on. -/
def Storage.device : Storage → Buffer
  | .managed m => m
  | .split _ d => d

/-- Replace the contents of the device-visible buffer. -/
def Storage.setDevice : Storage → List SiftPoint → Storage
  | .managed _, l => .managed (some l)
  | .split h _, l => .split h (some l)

/-- The valid records of a collection: the first `numPts` records of its
device-visible buffer. -/
def records (d : SiftData) : List SiftPoint :=
  match d.storage.device with
  | none => []
  | some l => l.take d.numPts.toNat

/-- Modelled from the spec: the body of `InitSiftData` is not in the header.
Section 4.5: "Create(capacity, storageMode) → collection with count = 0";
section 3: capacity is "fixed at creation", storage is "split" or "unified".
The store to initialise is passed in by reference; what it held is
discarded. -/
def InitSiftData (MANAGEDMEM : Bool) (_data : SiftData) (num : Int)
    (host : Bool) (dev : Bool) : SiftData :=
  { numPts := 0
    maxPts := num
    storage :=
      if MANAGEDMEM then .managed (some [])
      else .split (if host then some [] else none) (if dev then some [] else none) }

/-- Modelled from the spec: the two overflow policies that sections 3 and 7
allow, "reject further insertions" (keep the first records) and "reject the
call outright". -/
inductive OverflowPolicy where
  | truncate
  | rejectCall

/-- Modelled from the spec: a record as extraction leaves it, section 3:
the match index is "−1/sentinel until matched". -/
def unmatched (p : SiftPoint) : SiftPoint :=
  { p with «match» := -1 }

/-- Modelled from the spec: the body of `ExtractSift` is not in the header.
`found` is what detector and descriptor synthesizer produce for the image
(the signal processing itself is floating-point work and is not embedded).
Section 6: the call "populates `out` in place, overwriting existing content";
section 3: "insertion beyond capacity is either rejected or silently
truncated"; section 7 names the two policies.  Without a device-visible
buffer there is nothing to populate. -/
def ExtractSift (policy : OverflowPolicy) (siftData : SiftData)
    (found : List SiftPoint) : SiftData :=
  match siftData.storage.device with
  | none => siftData
  | some _ =>
    if (found.length : Int) ≤ siftData.maxPts then
      { siftData with
        numPts := found.length
        storage := siftData.storage.setDevice (found.map unmatched) }
    else
      match policy with
      | .rejectCall => siftData
      | .truncate =>
        { siftData with
          numPts := siftData.maxPts
          storage := siftData.storage.setDevice
            ((found.take siftData.maxPts.toNat).map unmatched) }

/-- Modelled from the spec: section 4.6, "descriptor distance (sum of squared
differences ...)". -/
def sqDist (u v : Fin 128 → ℚ) : ℚ := ∑ i, (u i - v i) ^ 2

/-- Modelled from the spec: section 4.6, what is tracked for one point of A:
"the smallest and second-smallest distances found and the index achieving the
smallest".  There is no second-smallest distance before two points of B have
been seen. -/
structure Nearest where
  index : Nat
  best : ℚ
  second : Option ℚ

/-- Modelled from the spec: take the distance `d` to point `j` of B into
account. -/
def Nearest.observe (t : Option Nearest) (j : Nat) (d : ℚ) : Nearest :=
  match t with
  | none => ⟨j, d, none⟩
  | some n =>
    if d < n.best then ⟨j, d, some n.best⟩
    else
      match n.second with
      | none => ⟨n.index, n.best, some d⟩
      | some s => ⟨n.index, n.best, some (min d s)⟩

/-- Modelled from the spec: compare point `p` of A with the points of B from
index `j` on. -/
def scan (p : SiftPoint) : List SiftPoint → Nat → Option Nearest → Option Nearest
  | [], _, t => t
  | q :: qs, j, t => scan p qs (j + 1) (some (Nearest.observe t j (sqDist p.data q.data)))

/-- Modelled from the spec: the best and second-best match of `p` in B. -/
def nearest (p : SiftPoint) (bs : List SiftPoint) : Option Nearest := scan p bs 0 none

/-- Modelled from the spec: section 4.6, "ambiguity = best_distance /
second_best_distance".  The specification names no value for a point that
has no second-best distance or whose second-best distance is 0; `w` is what
the member holds in that case. -/
def Nearest.ambiguity (w : ℚ) (n : Nearest) : ℚ :=
  match n.second with
  | none => w
  | some s => if s = 0 then w else n.best / s

/-- Modelled from the spec: section 4.6, "Write into A's record: match = best
index in B, match_xpos/match_ypos = B's position at that index, match_error =
best distance, ambiguity = best_distance / second_best_distance".  A point is
left as it is when B has no point. -/
def annotate (w : ℚ) (bs : List SiftPoint) (p : SiftPoint) : SiftPoint :=
  match nearest p bs with
  | none => p
  | some n =>
    { p with
      «match» := n.index
      match_xpos := match bs[n.index]? with
        | some q => q.xpos
        | none => p.match_xpos
      match_ypos := match bs[n.index]? with
        | some q => q.ypos
        | none => p.match_ypos
      match_error := n.best
      ambiguity := n.ambiguity w }

/-- Modelled from the spec: the body of `MatchSiftData` is not in the header.
Section 4.6: every valid record of A is annotated with its best match among
the valid records of B; "only A's records are annotated".  This is the call
seen on the values of the two stores; the result is the new value of A.
Without device-visible buffers on both sides nothing is done.  The aggregate
quality the call returns is left open by the specification and is not
embedded. -/
def MatchSiftData (w : ℚ) (data1 data2 : SiftData) : SiftData :=
  match data1.storage.device, data2.storage.device with
  | some l, some _ =>
    { data1 with
      storage := data1.storage.setDevice
        ((l.take data1.numPts.toNat).map (annotate w (records data2))
          ++ l.drop data1.numPts.toNat) }
  | _, _ => data1

/-- Modelled from the spec: the body of `FreeSiftData` is not in the header.
Section 4.5: "Release(collection) frees all backing storage". -/
def FreeSiftData (data : SiftData) : SiftData :=
  { data with
    storage := match data.storage with
      | .managed _ => .managed none
      | .split _ _ => .split none none }

/-- Modelled from the spec: the operations of the header that take an
initialised store.  Printing and homography estimation read the store
(section 6: the store is their input, their results go elsewhere). -/
inductive Op where
  | extract (policy : OverflowPolicy) (found : List SiftPoint)
  | matchWith (w : ℚ) (data2 : SiftData)
  | print
  | homography
  | free

/-- Effect of one operation on the store it is applied to. -/
def Op.apply (d : SiftData) : Op → SiftData
  | .extract policy found => ExtractSift policy d found
  | .matchWith w data2 => MatchSiftData w d data2
  | .print => d
  | .homography => d
  | .free => FreeSiftData d

/-- Effect of a sequence of operations. -/
def run (d : SiftData) (ops : List Op) : SiftData := ops.foldl Op.apply d

/-- Modelled from the spec: section 4.2, "Upsampling (when enabled) doubles
the effective resolution before octave 0". -/
def upsampleFactor (scaleUp : Bool) : Nat := if scaleUp then 2 else 1

/-- Modelled from the spec: section 4.3 calls `lowestScale` the "lowest usable
scale": a keypoint passes the cutoff when its scale is not below it. -/
def passesLowestScale (lowestScale scale : ℚ) : Bool := decide (lowestScale ≤ scale)

/-- A record with every member 0 and no match. -/
def zeroPoint : SiftPoint :=
  { xpos := 0, ypos := 0, scale := 0, sharpness := 0, edgeness := 0,
    orientation := 0, score := 0, ambiguity := 0, «match» := -1,
    match_xpos := 0, match_ypos := 0, match_error := 0, subsampling := 0,
    empty := fun _ => 0, data := fun _ => 0 }

/-- A split-storage store holding the given records on the device. -/
def storeOf (l : List SiftPoint) : SiftData :=
  { numPts := l.length, maxPts := l.length, storage := .split none (some l) }

/-- A record whose descriptor has every component equal to `c`, all other
members as in `zeroPoint`. -/
def constPoint (c : ℚ) : SiftPoint := { zeroPoint with data := fun _ => c }

/-! ### The call on memory

`sift.h` passes both stores to `MatchSiftData` as `SiftData &` and keeps raw
`SiftPoint *` handles in them, so two store objects can hold the same buffer.
The definitions below model the call on a memory of store objects and
buffers. -/

/-- A `SiftPoint *` as the header declares it: null, or the address of a
buffer. -/
abbrev Handle := Option Nat

/-- The handle members of `SiftData` (sift.h lines 29-34). -/
inductive Handles where
  | managed (m_data : Handle)
  | split (h_data : Handle) (d_data : Handle)

/-- A `SiftData` object in memory (sift.h lines 26-35): two `int` members and
raw handles. -/
structure SiftDataObject where
  numPts : Int
  maxPts : Int
  handles : Handles

/-- The handle of the device-visible buffer. -/
def Handles.device : Handles → Handle
  | .managed m => m
  | .split _ d => d

/-- The handle of a buffer that only the host sees. -/
def Handles.host : Handles → Handle
  | .managed _ => none
  | .split h _ => h

/-- All handles of a store. -/
def Handles.all : Handles → List Handle
  | .managed m => [m]
  | .split h d => [h, d]

/-- Memory: the store objects a `SiftData &` can be bound to, and the contents
of the buffers, by address. -/
structure Memory where
  objects : Nat → SiftDataObject
  buffers : Nat → List SiftPoint

/-- The value of store object `r`: its counts, and behind each handle the
contents of the buffer it addresses. -/
def Memory.view (m : Memory) (r : Nat) : SiftData :=
  { numPts := (m.objects r).numPts
    maxPts := (m.objects r).maxPts
    storage :=
      match (m.objects r).handles with
      | .managed h => .managed (h.map m.buffers)
      | .split h d => .split (h.map m.buffers) (d.map m.buffers) }

/-- Modelled from the spec: the body of `MatchSiftData` is not in the header.
The call of section 4.6 on memory, `data1` and `data2` being the objects the
two references are bound to: the valid records of B are read through the
device-visible handle of `data2`, and the annotated records of A are written
to the buffer behind the device-visible handle of `data1`.  No member of a
store object is assigned. -/
def MatchSiftDataMem (w : ℚ) (m : Memory) (data1 data2 : Nat) : Memory :=
  match (m.objects data1).handles.device, (m.objects data2).handles.device with
  | some a, some _ =>
    { m with
      buffers := Function.update m.buffers a
        (((m.buffers a).take (m.objects data1).numPts.toNat).map
            (annotate w (records (m.view data2)))
          ++ (m.buffers a).drop (m.objects data1).numPts.toNat) }
  | _, _ => m

/-- Two store objects, numbered 0 and 1 (every other number stands for the
second one), with split storage, no host buffer and device buffers at the
addresses `a0` and `a1`, which hold `l0` and `l1` (the second wins when the
addresses are equal). -/
def twoStores (a0 a1 : Nat) (l0 l1 : List SiftPoint) : Memory :=
  { objects := fun r =>
      if r = 0 then ⟨l0.length, l0.length, .split none (some a0)⟩
      else ⟨l1.length, l1.length, .split none (some a1)⟩
    buffers := Function.update (Function.update (fun _ => []) a0 l0) a1 l1 }

/-- What tracking maintains: the best distance is not negative and not above
the second-best one. -/
def Nearest.ok (n : Nearest) : Prop := 0 ≤ n.best ∧ ∀ s, n.second = some s → n.best ≤ s

/-- The tracked values are right for the distances `ds` seen so far: the best
distance is the one at the tracked index and is the least of all; the
second-best distance, once there are two, is attained at another index and is
the least over all other indices. -/
structure Tracks (ds : List ℚ) (n : Nearest) : Prop where
  attained : ds[n.index]? = some n.best
  least : ∀ (k : Nat) (d : ℚ), ds[k]? = some d → n.best ≤ d
  others : ∀ (k : Nat) (d : ℚ), ds[k]? = some d → k ≠ n.index →
    ∃ s, n.second = some s ∧ s ≤ d
  second_attained : ∀ s, n.second = some s → ∃ k : Nat, k ≠ n.index ∧ ds[k]? = some s

/-- Before any distance is seen nothing is tracked; afterwards the tracked
values are right. -/
def TrackState (ds : List ℚ) : Option Nearest → Prop
  | none => ds = []
  | some n => Tracks ds n

/-- The distances from `p` to the points of B, in order. -/
def dists (p : SiftPoint) (bs : List SiftPoint) : List ℚ :=
  bs.map (fun q => sqDist p.data q.data)

/-- The count of a collection does not exceed its capacity. -/
def CountWithinCapacity (d : SiftData) : Prop := d.numPts ≤ d.maxPts

/-- The distance `d` is the least of the distances `ds` and is the one at
index `k`: the best distance, attained at `k`. -/
def LeastAt (ds : List ℚ) (k : Nat) (d : ℚ) : Prop :=
  ds[k]? = some d ∧ ∀ (j : Nat) (e : ℚ), ds[j]? = some e → d ≤ e

/-- The distance `s` is the least of the distances at the indices other than
`k`, and is one of them: the second-best distance, `k` being the best
match. -/
def SecondLeast (ds : List ℚ) (k : Nat) (s : ℚ) : Prop :=
  (∃ j : Nat, j ≠ k ∧ ds[j]? = some s) ∧
  ∀ (j : Nat) (e : ℚ), j ≠ k → ds[j]? = some e → s ≤ e

/-- The number `v` is the quotient of `best` by `second`: the divisor is not
0 and `v` times the divisor is the dividend. -/
def IsQuotient (v best second : ℚ) : Prop := second ≠ 0 ∧ v * second = best

/-- After matching `data1` against `data2`, every valid record of `data1`
that carries a match index holds as ambiguity the quotient of its best
distance by its second-best distance, between 0 and 1. -/
def AmbiguityInUnitInterval (w : ℚ) (data1 data2 : SiftData) : Prop :=
  ∀ (i : Nat) (p q : SiftPoint), (records data1)[i]? = some p →
    (records (MatchSiftData w data1 data2))[i]? = some q → q.«match» ≠ -1 →
    ∃ (k : Nat) (best second : ℚ),
      LeastAt (dists p (records data2)) k best ∧
      SecondLeast (dists p (records data2)) k second ∧
      IsQuotient q.ambiguity best second ∧ 0 ≤ q.ambiguity ∧ q.ambiguity ≤ 1

end CudaSift

namespace CudaSift

/-! ## The record types -/

/-- C2: a keypoint record has exactly one member `data`, an array of 128
`float` components (the descriptor), and exactly one member `empty`, an array
of 3 `float` scalars (the reserved padding); the padding is non-empty, its
name differs from the descriptor's, neither of the two is among the named
fields, and no two members of the record share a name. -/
theorem SiftPoint_descriptor_and_padding :
    SiftPoint_fields.filter (fun f => f.name == "data") = [⟨.float, "data", some 128⟩] ∧
    SiftPoint_fields.filter (fun f => f.name == "empty") = [⟨.float, "empty", some 3⟩] ∧
    (findField SiftPoint_fields "data").map Field.count = some 128 ∧
    (findField SiftPoint_fields "empty").map Field.count = some 3 ∧
    (∀ f ∈ SiftPoint_fields, f.name = "empty" → 0 < f.count) ∧
    "empty" ≠ "data" ∧
    "empty" ∉ namedFields.map Field.name ∧
    "data" ∉ namedFields.map Field.name ∧
    (SiftPoint_fields.map Field.name).Nodup := by
  decide

/-- C3: apart from `data` and `empty`, the members of a keypoint record are
exactly xpos, ypos, scale, sharpness, edgeness, orientation, score, ambiguity,
match, match_xpos, match_ypos, match_error and subsampling, thirteen in all;
`match` is an `int`, a type that contains -1, and each of the other twelve is a
single `float`. -/
theorem SiftPoint_named_fields :
    namedFields.map Field.name =
      ["xpos", "ypos", "scale", "sharpness", "edgeness", "orientation", "score",
       "ambiguity", "match", "match_xpos", "match_ypos", "match_error", "subsampling"] ∧
    namedFields.length = 13 ∧
    findField namedFields "match" = some ⟨.int, "match", none⟩ ∧
    intRange (-1) ∧
    (namedFields.filter (fun f => f.name != "match")).length = 12 ∧
    (∀ f ∈ namedFields, f.name ≠ "match" → f.type = .float ∧ f.len = none) ∧
    SiftPoint_fields = namedFields ++
      [⟨.float, "empty", some 3⟩, ⟨.float, "data", some 128⟩] := by
  refine ⟨by decide, by decide, by decide, ?_, by decide, by decide, by decide⟩
  unfold intRange
  norm_num

/-- C4: in every build the feature collection has exactly one of the two
layouts: with `MANAGEDMEM` its buffer handles are the single `m_data` and
there is no `h_data` or `d_data`; without it they are the two distinct handles
`h_data` and `d_data` and there is no `m_data`.  In both builds the record
starts with the two `int` members `numPts` and `maxPts`, followed by the
handles and nothing else. -/
theorem SiftData_one_layout (MANAGEDMEM : Bool) :
    ((MANAGEDMEM = true ∧ handles (SiftData_fields MANAGEDMEM) = ["m_data"] ∧
        findField (SiftData_fields MANAGEDMEM) "h_data" = none ∧
        findField (SiftData_fields MANAGEDMEM) "d_data" = none) ∨
      (MANAGEDMEM = false ∧ handles (SiftData_fields MANAGEDMEM) = ["h_data", "d_data"] ∧
        "h_data" ≠ "d_data" ∧
        findField (SiftData_fields MANAGEDMEM) "m_data" = none)) ∧
    ¬ (handles (SiftData_fields MANAGEDMEM) = ["m_data"] ∧
        handles (SiftData_fields MANAGEDMEM) = ["h_data", "d_data"]) ∧
    findField (SiftData_fields MANAGEDMEM) "numPts" = some ⟨.int, "numPts", none⟩ ∧
    findField (SiftData_fields MANAGEDMEM) "maxPts" = some ⟨.int, "maxPts", none⟩ ∧
    (SiftData_fields MANAGEDMEM).map Field.name =
      ["numPts", "maxPts"] ++ handles (SiftData_fields MANAGEDMEM) := by
  cases MANAGEDMEM <;> decide

/-- C10: with `int` and `float` one 4-byte word each, the thirteen named
fields and the three padding scalars are 16 words, the descriptor starts at
byte 64 (word 16), the record is 576 bytes (144 words, a multiple of 16
words), every member starts where the previous one ends, and the size of the
record is the sum of the sizes of its members: the layout inserts no
padding. -/
theorem SiftPoint_layout :
    (∀ f ∈ SiftPoint_fields, f.type.size = wordBytes) ∧
    ((namedFields ++ SiftPoint_fields.filter (fun f => f.name == "empty")).map
        Field.count).sum = 16 ∧
    offsetOf SiftPoint_fields "data" = some (16 * wordBytes) ∧
    offsetOf SiftPoint_fields "data" = some 64 ∧
    sizeOf SiftPoint_fields = 144 * wordBytes ∧
    sizeOf SiftPoint_fields = 576 ∧
    (sizeOf SiftPoint_fields / wordBytes) % 16 = 0 ∧
    offsetsFrom 0 SiftPoint_fields =
      [("xpos", 0), ("ypos", 4), ("scale", 8), ("sharpness", 12), ("edgeness", 16),
       ("orientation", 20), ("score", 24), ("ambiguity", 28), ("match", 32),
       ("match_xpos", 36), ("match_ypos", 40), ("match_error", 44),
       ("subsampling", 48), ("empty", 52), ("data", 64)] ∧
    (SiftPoint_fields.map Field.bytes).sum = sizeOf SiftPoint_fields := by
  decide

/-! ## Default arguments -/

/-- C5: `InitSiftData` has one required parameter, the store, followed by
the optional `num = 1024`, `host = false`, `dev = true` in that order; a call
that passes only the store binds the same arguments as the call that passes
1024, false and true. -/
theorem InitSiftData_defaults (data : Arg) :
    InitSiftData_decl.params = required InitSiftData_decl ++ optional InitSiftData_decl ∧
    optional InitSiftData_decl =
      [⟨.int, "num", some (.int 1024)⟩, ⟨.bool, "host", some (.bool false)⟩,
       ⟨.bool, "dev", some (.bool true)⟩] ∧
    bindArgs InitSiftData_decl.params [data] =
      some [data, .lit (.int 1024), .lit (.bool false), .lit (.bool true)] ∧
    bindArgs InitSiftData_decl.params [data] =
      bindArgs InitSiftData_decl.params
        [data, .lit (.int 1024), .lit (.bool false), .lit (.bool true)] := by
  refine ⟨by decide, by decide, ?_, ?_⟩ <;> simp [InitSiftData_decl, bindArgs]

/-- C6: `FindHomography` returns `double`; its required parameters are the
store, the transform buffer and the inlier-count slot; they are followed by
`numLoops = 1000`, `minScore = 0.85`, `maxAmbiguity = 0.95` and `thresh = 5.0`
in that order, and a call with only the three required arguments binds those
four values. -/
theorem FindHomography_defaults (data homography numMatches : Arg) :
    FindHomography_decl.ret = .double ∧
    FindHomography_decl.params =
      required FindHomography_decl ++ optional FindHomography_decl ∧
    (required FindHomography_decl).map Param.name = ["data", "homography", "numMatches"] ∧
    (optional FindHomography_decl).map (fun p => (p.type, p.name)) =
      [(.int, "numLoops"), (.float, "minScore"), (.float, "maxAmbiguity"),
       (.float, "thresh")] ∧
    bindArgs FindHomography_decl.params [data, homography, numMatches] =
      some [data, homography, numMatches, .lit (.int 1000), .lit (.float 85 2),
        .lit (.float 95 2), .lit (.float 50 1)] ∧
    Literal.toRat (.int 1000) = 1000 ∧
    Literal.toRat (.float 85 2) = 85 / 100 ∧
    Literal.toRat (.float 95 2) = 95 / 100 ∧
    Literal.toRat (.float 50 1) = 5 := by
  refine ⟨by decide, by decide, by decide, by decide, ?_, ?_, ?_, ?_, ?_⟩
  · simp [FindHomography_decl, bindArgs]
  all_goals norm_num [Literal.toRat]

/-- C7: `ExtractSift` requires, in this order, the store, the image, the
`int` octave count, the `double` initial blur and the `float` contrast
threshold; they are followed by the optional `lowestScale = 0.0` and
`scaleUp = false`.  A call with the five required arguments binds those two
values, with which no keypoint of non-negative scale is below the lowest-scale
cutoff and the resolution is not doubled. -/
theorem ExtractSift_defaults (siftData img numOctaves initBlur thresh : Arg) :
    ExtractSift_decl.params = required ExtractSift_decl ++ optional ExtractSift_decl ∧
    (required ExtractSift_decl).map (fun p => (p.type, p.name)) =
      [(.ref "SiftData", "siftData"), (.ref "Image", "img"), (.int, "numOctaves"),
       (.double, "initBlur"), (.float, "thresh")] ∧
    optional ExtractSift_decl =
      [⟨.float, "lowestScale", some (.float 0 1)⟩, ⟨.bool, "scaleUp", some (.bool false)⟩] ∧
    bindArgs ExtractSift_decl.params [siftData, img, numOctaves, initBlur, thresh] =
      some [siftData, img, numOctaves, initBlur, thresh, .lit (.float 0 1),
        .lit (.bool false)] ∧
    Literal.toRat (.float 0 1) = 0 ∧
    (∀ scale : ℚ, 0 ≤ scale → passesLowestScale (Literal.toRat (.float 0 1)) scale = true) ∧
    upsampleFactor false = 1 := by
  refine ⟨by decide, by decide, by decide, ?_, ?_, ?_, rfl⟩
  · simp [ExtractSift_decl, bindArgs]
  · norm_num [Literal.toRat]
  · intro scale h
    simpa [passesLowestScale, Literal.toRat] using h

/-! ## Matching: the tracked distances -/

/-- A sum of squares is not negative. -/
theorem sqDist_nonneg (u v : Fin 128 → ℚ) : 0 ≤ sqDist u v :=
  Finset.sum_nonneg (fun i _ => sq_nonneg (u i - v i))

/-- Taking one more distance into account keeps the tracked pair ordered. -/
theorem observe_ok (t : Option Nearest) (j : Nat) (d : ℚ) (hd : 0 ≤ d)
    (ht : ∀ n, t = some n → n.ok) : (Nearest.observe t j d).ok := by
  cases t with
  | none =>
    refine ⟨hd, ?_⟩
    intro s hs
    simp [Nearest.observe] at hs
  | some n =>
    obtain ⟨h0, h1⟩ := ht n rfl
    unfold Nearest.observe
    by_cases hlt : d < n.best
    · simp only [hlt, if_true]
      refine ⟨hd, ?_⟩
      intro s hs
      simp only [Option.some.injEq] at hs
      exact hs ▸ le_of_lt hlt
    · simp only [hlt, if_false]
      have hle : n.best ≤ d := not_lt.mp hlt
      cases hsec : n.second with
      | none =>
        refine ⟨h0, ?_⟩
        intro s hs
        simp only [Option.some.injEq] at hs
        exact hs ▸ hle
      | some s0 =>
        refine ⟨h0, ?_⟩
        intro s hs
        simp only [Option.some.injEq] at hs
        exact hs ▸ le_min hle (h1 s0 hsec)

/-- Scanning B keeps the tracked pair ordered. -/
theorem scan_ok (p : SiftPoint) (bs : List SiftPoint) :
    ∀ (j : Nat) (t : Option Nearest), (∀ n, t = some n → n.ok) →
      ∀ n, scan p bs j t = some n → n.ok := by
  induction bs with
  | nil =>
    intro j t ht n hn
    exact ht n hn
  | cons q qs ih =>
    intro j t ht n hn
    refine ih (j + 1) _ ?_ n hn
    intro m hm
    simp only [Option.some.injEq] at hm
    exact hm ▸ observe_ok t j _ (sqDist_nonneg _ _) ht

/-- The best distance is not negative and not above the second-best. -/
theorem nearest_ok (p : SiftPoint) (bs : List SiftPoint) (n : Nearest)
    (h : nearest p bs = some n) : n.ok :=
  scan_ok p bs 0 none (fun _ h0 => by cases h0) n h

/-- Reading back the device-visible buffer after writing it. -/
theorem device_setDevice (s : Storage) (l : List SiftPoint) :
    (s.setDevice l).device = some l := by
  cases s <;> rfl

/-- Rewriting the first `k` records of a buffer leaves `k` valid records. -/
theorem take_annotated {α : Type} (f : α → α) (k : Nat) (l : List α) :
    ((l.take k).map f ++ l.drop k).take k = (l.take k).map f := by
  rw [List.take_append_eq_append_take]
  rcases le_total k l.length with h | h
  · simp [List.length_take, Nat.min_eq_left h, List.take_of_length_le]
  · simp [List.drop_eq_nil_of_le h, List.take_of_length_le, List.length_take]

/-- The valid records of A after matching are the valid records of A before,
each annotated against the valid records of B. -/
theorem records_MatchSiftData (w : ℚ) (data1 data2 : SiftData)
    (h2 : data2.storage.device ≠ none) :
    records (MatchSiftData w data1 data2) =
      (records data1).map (annotate w (records data2)) := by
  cases h1 : data1.storage.device with
  | none =>
    have : MatchSiftData w data1 data2 = data1 := by
      simp [MatchSiftData, h1]
    rw [this]
    simp [records, h1]
  | some l =>
    cases hb : data2.storage.device with
    | none => exact absurd hb h2
    | some l2 =>
      have hm : MatchSiftData w data1 data2 =
          { data1 with
            storage := data1.storage.setDevice
              ((l.take data1.numPts.toNat).map (annotate w (records data2))
                ++ l.drop data1.numPts.toNat) } := by
        simp [MatchSiftData, h1, hb]
      rw [hm]
      simp only [records, device_setDevice, h1]
      exact take_annotated _ _ _


/-- Reading a list extended by one element. -/
theorem getElem?_snoc {α : Type} (l : List α) (a b : α) (k : Nat) :
    (l ++ [a])[k]? = some b ↔ l[k]? = some b ∨ (k = l.length ∧ a = b) := by
  rcases lt_trichotomy k l.length with h | h | h
  · rw [List.getElem?_append_left h]
    constructor
    · intro hb
      exact Or.inl hb
    · rintro (hb | ⟨hk, -⟩)
      · exact hb
      · omega
  · subst h
    simp
  · have h1 : l[k]? = none := List.getElem?_eq_none (le_of_lt h)
    have h2 : (l ++ [a])[k]? = none := List.getElem?_eq_none (by simp; omega)
    rw [h1, h2]
    constructor
    · intro hb
      cases hb
    · rintro (hb | ⟨hk, -⟩)
      · cases hb
      · omega

/-- The tracked index is the index of a distance seen. -/
theorem index_lt_of_tracks (ds : List ℚ) (n : Nearest) (h : Tracks ds n) :
    n.index < ds.length := by
  by_contra hlt
  have := h.attained
  rw [List.getElem?_eq_none (not_lt.mp hlt)] at this
  cases this

/-- Taking one more distance into account keeps the tracked values right. -/
theorem observe_tracks (ds : List ℚ) (t : Option Nearest) (d : ℚ) (h : TrackState ds t) :
    Tracks (ds ++ [d]) (Nearest.observe t ds.length d) := by
  cases t with
  | none =>
    have hds : ds = [] := h
    subst hds
    refine ⟨by simp [Nearest.observe], ?_, ?_, ?_⟩
    · intro k e hk
      rcases (getElem?_snoc [] d e k).mp hk with h1 | ⟨-, h2⟩
      · simp at h1
      · simp [Nearest.observe, h2]
    · intro k e hk hne
      rcases (getElem?_snoc [] d e k).mp hk with h1 | ⟨h1, -⟩
      · simp at h1
      · exact absurd h1 hne
    · intro s hs
      simp [Nearest.observe] at hs
  | some n =>
    have hn : Tracks ds n := h
    have hidx := index_lt_of_tracks ds n hn
    by_cases hlt : d < n.best
    · have ho : Nearest.observe (some n) ds.length d = ⟨ds.length, d, some n.best⟩ := by
        simp only [Nearest.observe, if_pos hlt]
      rw [ho]
      refine ⟨by simp, ?_, ?_, ?_⟩
      · intro k e hk
        rcases (getElem?_snoc ds d e k).mp hk with h1 | ⟨-, h2⟩
        · exact le_trans (le_of_lt hlt) (hn.least k e h1)
        · exact le_of_eq h2
      · intro k e hk hne
        rcases (getElem?_snoc ds d e k).mp hk with h1 | ⟨h1, -⟩
        · exact ⟨n.best, rfl, hn.least k e h1⟩
        · exact absurd h1 hne
      · intro s hs
        simp only [Option.some.injEq] at hs
        refine ⟨n.index, ?_, ?_⟩
        · exact Nat.ne_of_lt hidx
        · rw [(getElem?_snoc ds d s n.index)]
          exact Or.inl (hs ▸ hn.attained)
    · have hle : n.best ≤ d := not_lt.mp hlt
      cases hsec : n.second with
      | none =>
        have ho : Nearest.observe (some n) ds.length d = ⟨n.index, n.best, some d⟩ := by
          simp only [Nearest.observe, if_neg hlt, hsec]
        rw [ho]
        refine ⟨?_, ?_, ?_, ?_⟩
        · exact (getElem?_snoc ds d n.best n.index).mpr (Or.inl hn.attained)
        · intro k e hk
          rcases (getElem?_snoc ds d e k).mp hk with h1 | ⟨-, h2⟩
          · exact hn.least k e h1
          · exact h2 ▸ hle
        · intro k e hk hne
          rcases (getElem?_snoc ds d e k).mp hk with h1 | ⟨-, h2⟩
          · obtain ⟨s, hs, -⟩ := hn.others k e h1 hne
            rw [hsec] at hs
            cases hs
          · exact ⟨d, rfl, le_of_eq h2⟩
        · intro s hs
          simp only [Option.some.injEq] at hs
          exact ⟨ds.length, Nat.ne_of_gt hidx,
            (getElem?_snoc ds d s ds.length).mpr (Or.inr ⟨rfl, hs⟩)⟩
      | some s0 =>
        have ho : Nearest.observe (some n) ds.length d =
            ⟨n.index, n.best, some (min d s0)⟩ := by
          simp only [Nearest.observe, if_neg hlt, hsec]
        rw [ho]
        refine ⟨?_, ?_, ?_, ?_⟩
        · exact (getElem?_snoc ds d n.best n.index).mpr (Or.inl hn.attained)
        · intro k e hk
          rcases (getElem?_snoc ds d e k).mp hk with h1 | ⟨-, h2⟩
          · exact hn.least k e h1
          · exact h2 ▸ hle
        · intro k e hk hne
          rcases (getElem?_snoc ds d e k).mp hk with h1 | ⟨-, h2⟩
          · obtain ⟨s, hs, hse⟩ := hn.others k e h1 hne
            rw [hsec] at hs
            simp only [Option.some.injEq] at hs
            exact ⟨min d s0, rfl, le_trans (min_le_right d s0) (hs ▸ hse)⟩
          · exact ⟨min d s0, rfl, h2 ▸ min_le_left d s0⟩
        · intro s hs
          simp only [Option.some.injEq] at hs
          rcases min_choice d s0 with hm | hm
          · exact ⟨ds.length, Nat.ne_of_gt hidx,
              (getElem?_snoc ds d s ds.length).mpr (Or.inr ⟨rfl, by rw [← hs, hm]⟩)⟩
          · obtain ⟨k, hk, hks⟩ := hn.second_attained s0 hsec
            exact ⟨k, hk, (getElem?_snoc ds d s k).mpr (Or.inl (by rw [← hs, hm]; exact hks))⟩

/-- Scanning the rest of B keeps the tracked values right. -/
theorem scan_tracks (p : SiftPoint) (qs : List SiftPoint) :
    ∀ (pre : List SiftPoint) (t : Option Nearest), TrackState (dists p pre) t →
      ∀ n, scan p qs pre.length t = some n → Tracks (dists p (pre ++ qs)) n := by
  induction qs with
  | nil =>
    intro pre t ht n hn
    have : t = some n := hn
    subst this
    simpa using ht
  | cons q qs ih =>
    intro pre t ht n hn
    have hstep := observe_tracks (dists p pre) t (sqDist p.data q.data) ht
    have hlen : (dists p pre).length = pre.length := by simp [dists]
    rw [hlen] at hstep
    have h := ih (pre ++ [q]) (some (Nearest.observe t pre.length (sqDist p.data q.data)))
      (by simpa [dists, TrackState] using hstep) n (by simpa [scan] using hn)
    simpa using h

/-- The tracker returns the least distance, where it is attained, and the
least distance over the other points. -/
theorem nearest_tracks (p : SiftPoint) (bs : List SiftPoint) (n : Nearest)
    (h : nearest p bs = some n) : Tracks (dists p bs) n := by
  have := scan_tracks p bs [] none rfl n h
  simpa using this

/-- The same, read on the points of B. -/
theorem nearest_spec (p : SiftPoint) (bs : List SiftPoint) (n : Nearest)
    (h : nearest p bs = some n) :
    (∃ q, bs[n.index]? = some q ∧ sqDist p.data q.data = n.best) ∧
    (∀ (k : Nat) (q : SiftPoint), bs[k]? = some q → n.best ≤ sqDist p.data q.data) ∧
    (∀ s, n.second = some s →
      (∃ (k : Nat) (q : SiftPoint), k ≠ n.index ∧ bs[k]? = some q ∧
        sqDist p.data q.data = s) ∧
      (∀ (k : Nat) (q : SiftPoint), k ≠ n.index → bs[k]? = some q →
        s ≤ sqDist p.data q.data)) := by
  have ht := nearest_tracks p bs n h
  have hget : ∀ (k : Nat), (dists p bs)[k]? = (bs[k]?).map (fun q => sqDist p.data q.data) := by
    intro k
    simp [dists]
  refine ⟨?_, ?_, ?_⟩
  · have h1 := ht.attained
    rw [hget] at h1
    cases hq : bs[n.index]? with
    | none => simp [hq] at h1
    | some q => exact ⟨q, rfl, by simpa [hq] using h1⟩
  · intro k q hq
    exact ht.least k _ (by rw [hget, hq]; rfl)
  · intro s hs
    refine ⟨?_, ?_⟩
    · obtain ⟨k, hk, hks⟩ := ht.second_attained s hs
      rw [hget] at hks
      cases hq : bs[k]? with
      | none => simp [hq] at hks
      | some q => exact ⟨k, q, hk, hq, by simpa [hq] using hks⟩
    · intro k q hk hq
      obtain ⟨s1, hs1, hle⟩ := ht.others k _ (by rw [hget, hq]; rfl) hk
      rw [hs] at hs1
      simp only [Option.some.injEq] at hs1
      exact hs1 ▸ hle

/-! ## Count and capacity -/

/-- No operation on an initialised store breaks `numPts ≤ maxPts` or changes
`maxPts`. -/
theorem apply_counts (d : SiftData) (op : Op) (h : d.numPts ≤ d.maxPts) :
    (op.apply d).numPts ≤ (op.apply d).maxPts ∧ (op.apply d).maxPts = d.maxPts := by
  cases op with
  | extract policy found =>
    show (ExtractSift policy d found).numPts ≤ (ExtractSift policy d found).maxPts ∧
      (ExtractSift policy d found).maxPts = d.maxPts
    unfold ExtractSift
    split
    · exact ⟨h, rfl⟩
    · split
      · next hk => exact ⟨hk, rfl⟩
      · split
        · exact ⟨h, rfl⟩
        · exact ⟨le_refl _, rfl⟩
  | matchWith w data2 =>
    show (MatchSiftData w d data2).numPts ≤ (MatchSiftData w d data2).maxPts ∧
      (MatchSiftData w d data2).maxPts = d.maxPts
    unfold MatchSiftData
    split
    · exact ⟨h, rfl⟩
    · exact ⟨h, rfl⟩
  | print => exact ⟨h, rfl⟩
  | homography => exact ⟨h, rfl⟩
  | free => exact ⟨h, rfl⟩

/-- No sequence of operations breaks `numPts ≤ maxPts` or changes `maxPts`. -/
theorem run_counts (ops : List Op) :
    ∀ d : SiftData, d.numPts ≤ d.maxPts →
      (run d ops).numPts ≤ (run d ops).maxPts ∧ (run d ops).maxPts = d.maxPts := by
  induction ops with
  | nil =>
    intro d h
    exact ⟨h, rfl⟩
  | cons op ops ih =>
    intro d h
    have h1 := apply_counts d op h
    have h2 := ih (op.apply d) h1.1
    exact ⟨h2.1, h2.2.trans h1.2⟩

/-- C1 (amended): a store initialised by `InitSiftData` with a capacity that is
not negative starts with count 0, and after any sequence of extractions (under
either overflow policy), matchings, printings, homography estimations and
releases its count is at most its capacity and its capacity is the one it was
created with. -/
theorem count_le_capacity_after_init (MANAGEDMEM : Bool) (data : SiftData) (num : Int)
    (host dev : Bool) (ops : List Op) (hnum : 0 ≤ num) :
    CountWithinCapacity (run (InitSiftData MANAGEDMEM data num host dev) ops) ∧
    (run (InitSiftData MANAGEDMEM data num host dev) ops).maxPts = num ∧
    (InitSiftData MANAGEDMEM data num host dev).numPts = 0 := by
  have h := run_counts ops (InitSiftData MANAGEDMEM data num host dev) hnum
  exact ⟨h.1, h.2, rfl⟩

/-- Witness for C1 (amended): capacity 2, three keypoints found, then matching,
printing, homography estimation and release. -/
theorem count_le_capacity_after_init_witness :
    (0 : Int) ≤ 2 ∧
    CountWithinCapacity (run (InitSiftData false ⟨1, 0, .split none none⟩ 2 true true)
      [.extract .truncate [zeroPoint, zeroPoint, zeroPoint],
       .matchWith 0 (storeOf [zeroPoint]), .print, .homography, .free]) ∧
    (run (InitSiftData false ⟨1, 0, .split none none⟩ 2 true true)
      [.extract .truncate [zeroPoint, zeroPoint, zeroPoint],
       .matchWith 0 (storeOf [zeroPoint]), .print, .homography, .free]).maxPts = 2 ∧
    (InitSiftData false ⟨1, 0, .split none none⟩ 2 true true).numPts = 0 :=
  ⟨by decide, count_le_capacity_after_init false ⟨1, 0, .split none none⟩ 2 true true _
    (by decide)⟩

/-- Counterexample to C1 as stated: `SiftData` is a record of two independent
`int` members, so the value with `numPts = 1`, `maxPts = 0` is a value of the
type, and `InitSiftData` takes the store to initialise by reference, whatever
it holds; initialising with capacity -1 gives count 0 above capacity -1. -/
theorem count_above_capacity :
    ¬ CountWithinCapacity ⟨1, 0, .split none none⟩ ∧
    (InitSiftData_decl.params.head?).map Param.type = some (.ref "SiftData") ∧
    (InitSiftData false ⟨1, 0, .split none none⟩ (-1) false false).numPts = 0 ∧
    (InitSiftData false ⟨1, 0, .split none none⟩ (-1) false false).maxPts = -1 ∧
    ¬ CountWithinCapacity (InitSiftData false ⟨1, 0, .split none none⟩ (-1) false false) := by
  refine ⟨?_, by decide, rfl, rfl, ?_⟩ <;> simp [CountWithinCapacity, InitSiftData]

/-! ## Ambiguity -/

/-- Once a distance is tracked, scanning returns a tracked match. -/
theorem scan_some (p : SiftPoint) (qs : List SiftPoint) :
    ∀ (j : Nat) (x : Nearest), ∃ n, scan p qs j (some x) = some n := by
  induction qs with
  | nil =>
    intro j x
    exact ⟨x, rfl⟩
  | cons q qs ih =>
    intro j x
    exact ih (j + 1) _

/-- The tracker finds a best match as soon as B has a point, and the best
distance it returns is the least distance, attained at the index it returns. -/
theorem nearest_least (p : SiftPoint) (bs : List SiftPoint) (h : bs ≠ []) :
    ∃ n, nearest p bs = some n ∧ LeastAt (dists p bs) n.index n.best := by
  cases bs with
  | nil => exact absurd rfl h
  | cons q qs =>
    obtain ⟨n, hn⟩ := scan_some p qs 1 (Nearest.observe none 0 (sqDist p.data q.data))
    have hn2 : nearest p (q :: qs) = some n := hn
    have ht := nearest_tracks p (q :: qs) n hn2
    exact ⟨n, hn2, ht.attained, ht.least⟩

/-- The tracker finds a second-best distance as soon as B has two points, and
it is the least distance over the points other than the best match. -/
theorem nearest_second (p : SiftPoint) (bs : List SiftPoint) (n : Nearest)
    (hlen : 2 ≤ bs.length) (hn : nearest p bs = some n) :
    ∃ s, n.second = some s ∧ SecondLeast (dists p bs) n.index s := by
  have ht := nearest_tracks p bs n hn
  have hl : (dists p bs).length = bs.length := by simp [dists]
  have hex : ∃ (k : Nat) (d : ℚ), k ≠ n.index ∧ (dists p bs)[k]? = some d := by
    by_cases h0 : n.index = 0
    · refine ⟨1, (dists p bs)[1], by omega, ?_⟩
      exact List.getElem?_eq_getElem (by omega)
    · refine ⟨0, (dists p bs)[0], fun h => h0 h.symm, ?_⟩
      exact List.getElem?_eq_getElem (by omega)
  obtain ⟨k, d, hk, hd⟩ := hex
  obtain ⟨s, hs, -⟩ := ht.others k d hd hk
  refine ⟨s, hs, ht.second_attained s hs, ?_⟩
  intro j e hj he
  obtain ⟨s1, hs1, hle⟩ := ht.others j e he hj
  rw [hs] at hs1
  simp only [Option.some.injEq] at hs1
  exact hs1 ▸ hle

/-- C8 (amended): after matching A against B, when B has at least two valid
records, every valid record of A carries the index of its best match, the best
distance as match error and, when its second-best distance is not 0,
ambiguity = best distance / second-best distance, which lies between 0 and 1.
The best distance is the least distance to a valid record of B and is attained
at the match index; the second-best distance is the least distance to the
valid records of B at the other indices and is attained at one of them. -/
theorem MatchSiftData_ambiguity (w : ℚ) (data1 data2 : SiftData) (i : Nat) (p : SiftPoint)
    (hp : (records data1)[i]? = some p) (hB : 2 ≤ (records data2).length) :
    ∃ (q : SiftPoint) (k : Nat) (best second : ℚ),
      (records (MatchSiftData w data1 data2))[i]? = some q ∧
      LeastAt (dists p (records data2)) k best ∧
      SecondLeast (dists p (records data2)) k second ∧
      q.«match» = (k : Int) ∧ q.match_error = best ∧
      (second ≠ 0 →
        q.ambiguity = best / second ∧ IsQuotient q.ambiguity best second ∧
        0 ≤ q.ambiguity ∧ q.ambiguity ≤ 1) := by
  have hne : records data2 ≠ [] := by
    intro h
    rw [h] at hB
    simp at hB
  have h2 : data2.storage.device ≠ none := by
    intro hnone
    exact hne (by simp [records, hnone])
  obtain ⟨n, hn, hleast⟩ := nearest_least p (records data2) hne
  obtain ⟨s, hs, hsecond⟩ := nearest_second p (records data2) n hB hn
  obtain ⟨hb, hsec⟩ := nearest_ok p _ n hn
  have hq : (records (MatchSiftData w data1 data2))[i]? =
      some (annotate w (records data2) p) := by
    rw [records_MatchSiftData w data1 data2 h2, List.getElem?_map, hp]
    rfl
  refine ⟨annotate w (records data2) p, n.index, n.best, s, hq, hleast, hsecond, ?_, ?_, ?_⟩
  · simp [annotate, hn]
  · simp [annotate, hn]
  · intro h0
    have hle : n.best ≤ s := hsec s hs
    have hpos : 0 < s := lt_of_le_of_ne (le_trans hb hle) (Ne.symm h0)
    have ha : (annotate w (records data2) p).ambiguity = n.best / s := by
      simp [annotate, hn, Nearest.ambiguity, hs, h0]
    rw [ha]
    exact ⟨rfl, ⟨h0, div_mul_cancel₀ n.best h0⟩, div_nonneg hb (le_of_lt hpos),
      (div_le_one hpos).mpr hle⟩

/-- Witness for C8 (amended): a zero descriptor against descriptors at squared
distance 128 and 512; the ambiguity written is 128 / 512. -/
theorem MatchSiftData_ambiguity_witness :
    (records (storeOf [zeroPoint]))[0]? = some zeroPoint ∧
    2 ≤ (records (storeOf [constPoint 1, constPoint 2])).length ∧
    dists zeroPoint (records (storeOf [constPoint 1, constPoint 2])) = [128, 512] ∧
    ((records (MatchSiftData 7 (storeOf [zeroPoint])
        (storeOf [constPoint 1, constPoint 2])))[0]?).map
        (fun q => (q.«match», q.match_error, q.ambiguity)) =
      some ((0 : Int), (128 : ℚ), (128 : ℚ) / 512) ∧
    ∃ (q : SiftPoint) (k : Nat) (best second : ℚ),
      (records (MatchSiftData 7 (storeOf [zeroPoint])
        (storeOf [constPoint 1, constPoint 2])))[0]? = some q ∧
      LeastAt (dists zeroPoint (records (storeOf [constPoint 1, constPoint 2]))) k best ∧
      SecondLeast (dists zeroPoint (records (storeOf [constPoint 1, constPoint 2]))) k
        second ∧
      q.«match» = (k : Int) ∧ q.match_error = best ∧
      (second ≠ 0 →
        q.ambiguity = best / second ∧ IsQuotient q.ambiguity best second ∧
        0 ≤ q.ambiguity ∧ q.ambiguity ≤ 1) := by
  have hp : (records (storeOf [zeroPoint]))[0]? = some zeroPoint := by
    simp [records, storeOf, Storage.device]
  have hB : 2 ≤ (records (storeOf [constPoint 1, constPoint 2])).length := by
    simp [records, storeOf, Storage.device]
  refine ⟨hp, hB, ?_, ?_, MatchSiftData_ambiguity 7 (storeOf [zeroPoint])
    (storeOf [constPoint 1, constPoint 2]) 0 zeroPoint hp hB⟩
  · simp [dists, records, storeOf, Storage.device, sqDist, zeroPoint, constPoint]
    norm_num
  · rw [records_MatchSiftData _ _ _ (by simp [storeOf, Storage.device])]
    simp [records, storeOf, Storage.device, annotate, nearest, scan, Nearest.observe,
      Nearest.ambiguity, sqDist, zeroPoint, constPoint]
    norm_num

/-- Counterexample to C8 as stated: when B holds the descriptor of a point of A
twice, both distances are 0.  Whatever the call leaves in the ambiguity
member, the point is matched (index 0), its second-best distance is 0, and no
number is the quotient of the best distance by 0. -/
theorem ambiguity_undefined_for_duplicates :
    dists zeroPoint (records (storeOf [zeroPoint, zeroPoint])) = [0, 0] ∧
    (∀ w : ℚ, ((records (MatchSiftData w (storeOf [zeroPoint])
        (storeOf [zeroPoint, zeroPoint])))[0]?).map (fun q => q.«match») = some 0) ∧
    (∀ v best : ℚ, ¬ IsQuotient v best 0) ∧
    (∀ w : ℚ, ¬ AmbiguityInUnitInterval w (storeOf [zeroPoint])
        (storeOf [zeroPoint, zeroPoint])) := by
  have hd : dists zeroPoint (records (storeOf [zeroPoint, zeroPoint])) = [0, 0] := by
    simp [dists, records, storeOf, Storage.device, sqDist, zeroPoint]
  have hr : ∀ w : ℚ, records (MatchSiftData w (storeOf [zeroPoint])
      (storeOf [zeroPoint, zeroPoint])) =
      [annotate w (records (storeOf [zeroPoint, zeroPoint])) zeroPoint] := by
    intro w
    rw [records_MatchSiftData _ _ _ (by simp [storeOf, Storage.device])]
    simp [records, storeOf, Storage.device]
  have hm : ∀ w : ℚ,
      (annotate w (records (storeOf [zeroPoint, zeroPoint])) zeroPoint).«match» = 0 := by
    intro w
    simp [annotate, records, storeOf, Storage.device, nearest, scan, Nearest.observe,
      sqDist, zeroPoint]
  refine ⟨hd, ?_, ?_, ?_⟩
  · intro w
    rw [hr w]
    simp [hm w]
  · intro v best h
    exact h.1 rfl
  · intro w h
    obtain ⟨k, best, second, -, hS, hQ, -⟩ := h 0 zeroPoint
      (annotate w (records (storeOf [zeroPoint, zeroPoint])) zeroPoint)
      (by simp [records, storeOf, Storage.device]) (by rw [hr w]; rfl)
      (by rw [hm w]; decide)
    obtain ⟨j, -, hj⟩ := hS.1
    rw [hd] at hj
    have hmem := List.getElem?_mem hj
    have h0 : second = 0 := by simpa using hmem
    exact hQ.1 h0

/-! ## Matching and the second store -/

/-- A store whose object and buffers are untouched has the same value. -/
theorem view_congr (m m2 : Memory) (r : Nat) (hobj : m2.objects r = m.objects r)
    (hbuf : ∀ a : Nat, some a ∈ (m.objects r).handles.all → m2.buffers a = m.buffers a) :
    m2.view r = m.view r := by
  unfold Memory.view
  rw [hobj]
  cases hh : (m.objects r).handles with
  | managed h =>
    rw [hh] at hbuf
    cases h with
    | none => rfl
    | some a =>
      have := hbuf a (by simp [Handles.all])
      simp [this]
  | split h d =>
    rw [hh] at hbuf
    have hh1 : h.map m2.buffers = h.map m.buffers := by
      cases h with
      | none => rfl
      | some a =>
        have := hbuf a (by simp [Handles.all])
        simp [this]
    have hd1 : d.map m2.buffers = d.map m.buffers := by
      cases d with
      | none => rfl
      | some a =>
        have := hbuf a (by simp [Handles.all])
        simp [this]
    simp [hh1, hd1]

/-- The call assigns no member of any store object. -/
theorem objects_MatchSiftDataMem (w : ℚ) (m : Memory) (data1 data2 : Nat) :
    (MatchSiftDataMem w m data1 data2).objects = m.objects := by
  unfold MatchSiftDataMem
  split <;> rfl

/-- The call writes no buffer other than the one behind the device-visible
handle of `data1`. -/
theorem buffers_MatchSiftDataMem (w : ℚ) (m : Memory) (data1 data2 : Nat) (b : Nat)
    (hb : (m.objects data1).handles.device ≠ some b) :
    (MatchSiftDataMem w m data1 data2).buffers b = m.buffers b := by
  unfold MatchSiftDataMem
  split
  · next a _ ha _ =>
    have hne : b ≠ a := by
      intro h
      exact hb (by rw [ha, h])
    simp [Function.update_noteq hne]
  · rfl

/-- The device-visible buffer of the value of a store is the buffer behind its
device-visible handle. -/
theorem view_device (m : Memory) (r : Nat) :
    (m.view r).storage.device = ((m.objects r).handles.device).map m.buffers := by
  unfold Memory.view
  cases (m.objects r).handles <;> rfl

/-- On the value of A the call on memory is the call on values, provided the
host-only handle of A does not address its device-visible buffer. -/
theorem view_MatchSiftDataMem (w : ℚ) (m : Memory) (data1 data2 : Nat)
    (hA : ∀ a : Nat, (m.objects data1).handles.device = some a →
      (m.objects data1).handles.host ≠ some a) :
    (MatchSiftDataMem w m data1 data2).view data1 =
      MatchSiftData w (m.view data1) (m.view data2) := by
  have h1 := view_device m data1
  have h2 := view_device m data2
  cases hd1 : (m.objects data1).handles.device with
  | none =>
    have hm : MatchSiftDataMem w m data1 data2 = m := by
      simp [MatchSiftDataMem, hd1]
    rw [hm]
    simp [MatchSiftData, h1, hd1]
  | some a =>
    cases hd2 : (m.objects data2).handles.device with
    | none =>
      have hm : MatchSiftDataMem w m data1 data2 = m := by
        simp [MatchSiftDataMem, hd1, hd2]
      rw [hm]
      simp [MatchSiftData, h1, h2, hd1, hd2]
    | some b =>
      have hA2 := hA a hd1
      rw [hd1] at h1
      rw [hd2] at h2
      simp only [MatchSiftData, h1, h2, Option.map_some']
      simp only [MatchSiftDataMem, hd1, hd2, Memory.view]
      cases hh : (m.objects data1).handles with
      | managed h =>
        rw [hh] at hd1
        simp only [Handles.device] at hd1
        subst hd1
        simp [Storage.setDevice]
      | split h d =>
        rw [hh] at hd1 hA2
        simp only [Handles.device] at hd1
        simp only [Handles.host] at hA2
        subst hd1
        cases h with
        | none => simp [Storage.setDevice]
        | some c =>
          have hc : c ≠ a := fun e => hA2 (by rw [e])
          simp [Storage.setDevice, Function.update_noteq hc]

/-- C9 (amended): matching annotates only A.  When no handle of the store
bound to `data2` addresses the device-visible buffer of the store bound to
`data1`, the store bound to `data2` is the same after the call as before:
count, capacity and handles, the contents of every buffer it addresses, and
so every member of every record; the store bound to `data1` keeps its count
and capacity.  The interface does not enforce this: both parameters are
non-const references to `SiftData`. -/
theorem MatchSiftData_leaves_other_store (w : ℚ) (m : Memory) (data1 data2 : Nat)
    (hown : ∀ a : Nat, (m.objects data1).handles.device = some a →
      some a ∉ (m.objects data2).handles.all) :
    (MatchSiftDataMem w m data1 data2).objects data2 = m.objects data2 ∧
    (∀ a : Nat, some a ∈ (m.objects data2).handles.all →
      (MatchSiftDataMem w m data1 data2).buffers a = m.buffers a) ∧
    (MatchSiftDataMem w m data1 data2).view data2 = m.view data2 ∧
    records ((MatchSiftDataMem w m data1 data2).view data2) = records (m.view data2) ∧
    ((MatchSiftDataMem w m data1 data2).objects data1).numPts = (m.objects data1).numPts ∧
    ((MatchSiftDataMem w m data1 data2).objects data1).maxPts = (m.objects data1).maxPts ∧
    MatchSiftData_decl.params.map Param.type = [.ref "SiftData", .ref "SiftData"] := by
  have hobj := objects_MatchSiftDataMem w m data1 data2
  have hbuf : ∀ a : Nat, some a ∈ (m.objects data2).handles.all →
      (MatchSiftDataMem w m data1 data2).buffers a = m.buffers a := by
    intro a ha
    exact buffers_MatchSiftDataMem w m data1 data2 a (fun h => hown a h ha)
  have hview := view_congr m (MatchSiftDataMem w m data1 data2) data2 (by rw [hobj]) hbuf
  exact ⟨by rw [hobj], hbuf, hview, by rw [hview], by rw [hobj], by rw [hobj], by decide⟩

/-- Witness for C9 (amended): store 0 with its buffer at address 0 is matched
against store 1 with its buffer at address 1. -/
theorem MatchSiftData_leaves_other_store_witness :
    (∀ a : Nat, ((twoStores 0 1 [zeroPoint] [zeroPoint, zeroPoint]).objects 0).handles.device
        = some a →
      some a ∉ ((twoStores 0 1 [zeroPoint] [zeroPoint, zeroPoint]).objects 1).handles.all) ∧
    (MatchSiftDataMem 0 (twoStores 0 1 [zeroPoint] [zeroPoint, zeroPoint]) 0 1).view 1 =
      (twoStores 0 1 [zeroPoint] [zeroPoint, zeroPoint]).view 1 ∧
    (((records ((MatchSiftDataMem 0 (twoStores 0 1 [zeroPoint] [zeroPoint, zeroPoint])
        0 1).view 0))[0]?).map (fun q => q.«match») = some 0) := by
  have hown : ∀ a : Nat,
      ((twoStores 0 1 [zeroPoint] [zeroPoint, zeroPoint]).objects 0).handles.device = some a →
      some a ∉ ((twoStores 0 1 [zeroPoint] [zeroPoint, zeroPoint]).objects 1).handles.all := by
    intro a ha
    simp [twoStores, Handles.device] at ha
    subst ha
    simp [twoStores, Handles.all]
  refine ⟨hown, (MatchSiftData_leaves_other_store 0
    (twoStores 0 1 [zeroPoint] [zeroPoint, zeroPoint]) 0 1 hown).2.2.1, ?_⟩
  rw [view_MatchSiftDataMem 0 _ 0 1 (by simp [twoStores, Handles.host]),
    records_MatchSiftData _ _ _ (by simp [view_device, twoStores, Handles.device])]
  simp [records, view_device, twoStores, Handles.device, Memory.view, Storage.device,
    annotate, nearest, scan, Nearest.observe]

/-- Counterexample to C9 as stated: the second parameter of `MatchSiftData` is
a non-const reference, exactly like the first, so the interface lets the
operation write to B; and with two different store objects that hold the same
device address (one is a copy of the other), the records of the store bound
to `data2` are annotated: the match index of its record 0 is -1 before the
call and 0 after it.  The same happens when a store is matched against
itself. -/
theorem MatchSiftData_second_store_writable :
    MatchSiftData_decl.params.map (fun p => (p.name, p.type, p.type.writable)) =
      [("data1", .ref "SiftData", true), ("data2", .ref "SiftData", true)] ∧
    ((twoStores 0 0 [zeroPoint] [zeroPoint]).objects 0).handles.device = some 0 ∧
    ((twoStores 0 0 [zeroPoint] [zeroPoint]).objects 1).handles.device = some 0 ∧
    ((records ((twoStores 0 0 [zeroPoint] [zeroPoint]).view 1))[0]?).map
      (fun q => q.«match») = some (-1) ∧
    ((records ((MatchSiftDataMem 0 (twoStores 0 0 [zeroPoint] [zeroPoint]) 0 1).view 1))[0]?).map
      (fun q => q.«match») = some 0 ∧
    ((records ((twoStores 0 1 [zeroPoint] [zeroPoint]).view 0))[0]?).map
      (fun q => q.«match») = some (-1) ∧
    ((records ((MatchSiftDataMem 0 (twoStores 0 1 [zeroPoint] [zeroPoint]) 0 0).view 0))[0]?).map
      (fun q => q.«match») = some 0 := by
  refine ⟨by decide, by simp [twoStores, Handles.device], by simp [twoStores, Handles.device],
    ?_, ?_, ?_, ?_⟩
  · simp [records, twoStores, Memory.view, Storage.device, zeroPoint]
  · simp [records, MatchSiftDataMem, twoStores, Memory.view, Storage.device, Handles.device,
      annotate, nearest, scan, Nearest.observe]
  · simp [records, twoStores, Memory.view, Storage.device, zeroPoint]
  · simp [records, MatchSiftDataMem, twoStores, Memory.view, Storage.device, Handles.device,
      annotate, nearest, scan, Nearest.observe]

end CudaSift
